import Mathlib

/-!
Shallow embedding of the FinDashboard data-fetch-and-indicator pipeline
(`src/crypto_dashboard.py` and `src/app.py`).

A pandas `DataFrame` is modelled column-wise: a list of named columns, each
column a list of cells, where a cell is `Option ℚ` (`none` models a missing
value / `NaN`, which in the Python code propagates through arithmetic,
`min` and `max`).  Python exceptions (`KeyError`, `IndexError`) are modelled
with `Except String`.  Epoch-millisecond timestamps are kept as their
numeric values; `pd.to_datetime(·, unit="ms")` is injective and strictly
monotone, so ordering statements are unaffected.
-/

namespace FinDash

/-- A cell of a data frame: `none` models pandas `NaN` / missing value. -/
abbrev Cell := Option ℚ

/-- A column is a list of cells. -/
abbrev Col := List Cell

/-- A data frame, modelled column-wise: column name paired with its cells,
in column order. -/
abbrev Frame := List (String × Col)

/-- Look up a column by name (`df["name"]` when it succeeds). -/
def lookupCol (name : String) (df : Frame) : Option Col :=
  (df.find? (·.1 == name)).map (·.2)

/-- Column access `df["name"]`; raises `KeyError` when absent, as pandas does. -/
def getColE (df : Frame) (name : String) : Except String Col :=
  match df.find? (·.1 == name) with
  | some p => .ok p.2
  | none => .error ("KeyError: " ++ name)

/-- Column assignment `df["name"] = col`: pandas overwrites an existing
column in place and otherwise appends the new column at the end. -/
def setCol (df : Frame) (name : String) (col : Col) : Frame :=
  if df.any (·.1 == name) then
    df.map (fun p => if p.1 == name then (name, col) else p)
  else
    df ++ [(name, col)]

/-- Cell subtraction: `NaN` propagates, as in float arithmetic. -/
def osub (a b : Cell) : Cell :=
  match a, b with
  | some x, some y => some (x - y)
  | _, _ => none

/-- Cell division: `NaN` propagates.  (Division of a rational by zero is the
Lean convention `q / 0 = 0`; no claim in this development evaluates the
zero-divisor case.) -/
def odiv (a b : Cell) : Cell :=
  match a, b with
  | some x, some y => some (x / y)
  | _, _ => none

/-- Python's builtin `min(a, b)`: returns `b` exactly when `b < a`. -/
def qmin (a b : ℚ) : ℚ := if b < a then b else a

/-- Python's builtin `max(a, b)`: returns `b` exactly when `b > a`. -/
def qmax (a b : ℚ) : ℚ := if a < b then b else a

/-- The clamp `max(min(v, 1), -1)` from `compute_buy_sell_strength`.
Python's builtin `min(x, 1)` and `max(x, -1)` both return `NaN` when `x`
is `NaN` (the comparison with `NaN` is false, so the first argument is
kept), hence `none` propagates. -/
def oclamp (a : Cell) : Cell :=
  a.map (fun v => qmax (qmin v 1) (-1))

/-- Extract the values of a column when every cell is present; `none` as
soon as one cell is missing. -/
def seqCells : Col → Option (List ℚ)
  | [] => some []
  | none :: _ => none
  | some x :: rest => (seqCells rest).map (x :: ·)

/-- Trailing rolling window of width `w` applied cell-wise, pandas
`rolling(w, min_periods=w)` semantics: entry `i` is `f` of the `w` samples
ending at `i`; `none` during the warm-up (`i + 1 < w`) and whenever the
window contains a missing cell. -/
def rollingApply (w : Nat) (f : List ℚ → ℚ) (xs : Col) : Col :=
  (List.range xs.length).map (fun i =>
    if i + 1 < w then none
    else (seqCells ((xs.drop (i + 1 - w)).take w)).map f)

/-- Arithmetic mean of a window. -/
def windowMean (w : Nat) (ys : List ℚ) : ℚ := ys.sum / w

/-- Rolling simple moving average, `Series.rolling(w, min_periods=w).mean()`,
which is what `ta.trend.SMAIndicator(·, window=w).sma_indicator()` computes. -/
def rollingMean (w : Nat) (xs : Col) : Col :=
  rollingApply w (windowMean w) xs

/-- Newton iteration approximating a square root in ℚ.  The external `ta`
library computes a floating-point square root for the Bollinger standard
deviation; no irrational number exists in ℚ, and no claim in this
development evaluates a Bollinger cell, so a fixed-iteration rational
approximation stands in for the float value. -/
def sqrtQ (q : ℚ) : ℚ :=
  if q ≤ 0 then 0
  else (List.range 8).foldl (fun x _ => if x = 0 then 0 else (x + q / x) / 2) (q + 1)

/-- Population (`ddof = 0`) standard deviation of a window, as used by
`ta.volatility.BollingerBands`; square root Newton-approximated
(see `sqrtQ`). -/
def windowStd (w : Nat) (ys : List ℚ) : ℚ :=
  sqrtQ ((ys.map (fun y => (y - windowMean w ys) ^ 2)).sum / w)

/-- Rolling standard deviation for the Bollinger computation. -/
def rollingStd (w : Nat) (xs : Col) : Col :=
  rollingApply w (windowStd w) xs

/-- Maximum of a (nonempty) window. -/
def windowMax (ys : List ℚ) : ℚ := ys.foldr max (ys.headD 0)

/-- Minimum of a (nonempty) window. -/
def windowMin (ys : List ℚ) : ℚ := ys.foldr min (ys.headD 0)

/-- Rolling maximum (Ichimoku lines). -/
def rollingMax (w : Nat) (xs : Col) : Col :=
  rollingApply w windowMax xs

/-- Rolling minimum (Ichimoku lines). -/
def rollingMin (w : Nat) (xs : Col) : Col :=
  rollingApply w windowMin xs

/-- Combine two columns cell-wise; `NaN` propagates. -/
def colMap2 (f : ℚ → ℚ → ℚ) (a b : Col) : Col :=
  List.zipWith (fun x y =>
    match x, y with
    | some u, some v => some (f u v)
    | _, _ => (none : Cell)) a b

/-- Consecutive differences `Series.diff(1)` (without the leading `NaN`,
which the Wilder warm-up padding below re-absorbs). -/
def priceDiffs (prices : List ℚ) : List ℚ :=
  List.zipWith (fun a b => a - b) prices.tail prices

/-- Wilder smoothing of a series of gains/losses: the first average is the
arithmetic mean of the first `w` entries, each later average is
`(prev * (w - 1) + current) / w`.  Empty when fewer than `w` entries
exist. -/
def wilderAvg (w : Nat) (xs : List ℚ) : List ℚ :=
  if xs.length < w ∨ w = 0 then []
  else (xs.drop w).scanl (fun acc x => (acc * ((w : ℚ) - 1) + x) / w) ((xs.take w).sum / w)

/-- Wilder relative strength index over trailing `w` price deltas, range
[0, 100], `none` during the warm-up.  Modelled from the spec: the `ta`
library implementing `RSIIndicator` is external to this repository; the
spec describes "standard Wilder relative-strength index over trailing
`window` samples of price deltas".  A zero average loss yields 100. -/
def rsiValues (w : Nat) (prices : List ℚ) : List ℚ :=
  List.zipWith (fun g l => if l = 0 then (100 : ℚ) else 100 - 100 / (1 + g / l))
    (wilderAvg w ((priceDiffs prices).map (fun x => max x 0)))
    (wilderAvg w ((priceDiffs prices).map (fun x => max (-x) 0)))

/-- RSI as a column aligned 1:1 with the price column: warm-up entries are
`none`; a price column containing a missing cell yields an all-`none`
column (the external library's `NaN` propagation; no claim evaluates
these values). -/
def rsiCol (w : Nat) (xs : Col) : Col :=
  match seqCells xs with
  | none => xs.map (fun _ => (none : Cell))
  | some prices =>
      List.replicate (prices.length - (rsiValues w prices).length) (none : Cell)
        ++ (rsiValues w prices).map some

/-- `compute_indicator(df, kind)` from `src/crypto_dashboard.py`: dispatch
on the indicator kind, appending the derived columns; any other kind
returns the frame unchanged.  `df["price"]` raises `KeyError` when the
column is absent (only reachable in the four recognized branches). -/
def compute_indicator (df : Frame) (kind : String) : Except String Frame :=
  if kind = "SMA" then do
    let price ← getColE df "price"
    return setCol df "SMA_14" (rollingMean 14 price)
  else if kind = "Bollinger Bands" then do
    let price ← getColE df "price"
    let m := rollingMean 20 price
    let s := rollingStd 20 price
    let df := setCol df "bb_h" (colMap2 (fun a b => a + 2 * b) m s)
    let df := setCol df "bb_l" (colMap2 (fun a b => a - 2 * b) m s)
    return setCol df "bb_m" m
  else if kind = "Ichimoku" then do
    let price ← getColE df "price"
    let tenkan := colMap2 (fun a b => (a + b) / 2) (rollingMax 9 price) (rollingMin 9 price)
    let kijun := colMap2 (fun a b => (a + b) / 2) (rollingMax 26 price) (rollingMin 26 price)
    let df := setCol df "tenkan" tenkan
    let df := setCol df "kijun" kijun
    let df := setCol df "senkou_a" (colMap2 (fun a b => (a + b) / 2) tenkan kijun)
    return setCol df "senkou_b"
      (colMap2 (fun a b => (a + b) / 2) (rollingMax 52 price) (rollingMin 52 price))
  else if kind = "RSI" then do
    let price ← getColE df "price"
    return setCol df "rsi_14" (rsiCol 14 price)
  else
    return df

/-- `compute_buy_sell_strength(df)` from `src/crypto_dashboard.py`:
`last = df["price"].iloc[-1]`, `last_sma` the last cell of the 20-sample
rolling SMA, then `max(min((last - last_sma) / last_sma, 1), -1)`.
`iloc[-1]` on an empty series raises `IndexError`; a `NaN` SMA (series
shorter than 20) flows through subtraction, division, `min` and `max` as
`NaN`, i.e. the function returns `NaN`, modelled as `.ok none`. -/
def compute_buy_sell_strength (df : Frame) : Except String Cell := do
  let prices ← getColE df "price"
  let smaCol := rollingMean 20 prices
  match prices.getLast?, smaCol.getLast? with
  | some lastP, some lastSma =>
      return oclamp (odiv (osub lastP lastSma) lastSma)
  | _, _ => .error "IndexError"

/-! ### Market data fetchers

The HTTP layer (`requests.get(...).json()`) is external; each fetcher is
modelled as a function of the parsed upstream JSON payload. -/

/-- A CoinGecko `/coins/market_chart` payload: a JSON object whose fields
(`"prices"`, `"total_volumes"`) are lists of `[epoch_ms, value]` pairs. -/
structure MarketChartPayload where
  fields : List (String × List (Nat × ℚ))
deriving DecidableEq

/-- Python dict indexing `data[key]`: `KeyError` when the key is absent. -/
def jget (p : MarketChartPayload) (key : String) : Except String (List (Nat × ℚ)) :=
  match p.fields.find? (·.1 == key) with
  | some kv => .ok kv.2
  | none => .error ("KeyError: " ++ key)

/-- One left-joined price row: no matching volume timestamp gives a `NaN`
volume; each matching volume row produces one output row (pandas join
semantics for duplicate keys). -/
def joinRow (vols : List (Nat × ℚ)) (tp : Nat × ℚ) : List (Nat × ℚ × Cell) :=
  match vols.filter (·.1 == tp.1) with
  | [] => [(tp.1, tp.2, none)]
  | ms => ms.map (fun v => (tp.1, tp.2, some v.2))

/-- `df.merge(vol, on="timestamp", how="left")`: price rows kept in order,
each expanded by `joinRow`. -/
def leftJoinVolume (ps vols : List (Nat × ℚ)) : List (Nat × ℚ × Cell) :=
  ps.flatMap (joinRow vols)

/-- `fetch_coin_history(coin_id, ...)` from `src/crypto_dashboard.py`,
as a function of the parsed payload: indexes `data["prices"]` and
`data["total_volumes"]` (raising `KeyError` when absent, in that order),
builds the timestamp/price frame and left-joins the volumes.  No sorting
and no deduplication is performed.  `pd.to_datetime(·, unit="ms")` is kept
as the numeric millisecond value. -/
def fetch_coin_history (payload : MarketChartPayload) : Except String Frame := do
  let prices ← jget payload "prices"
  let vols ← jget payload "total_volumes"
  let rows := leftJoinVolume prices vols
  return [("timestamp", rows.map (fun r => some (r.1 : ℚ))),
          ("price", rows.map (fun r => some r.2.1)),
          ("volume", rows.map (fun r => r.2.2))]

/-- One market-listing record from CoinGecko `/coins/markets`. -/
structure Coin where
  id : String
  symbol : String
  name : String
  current_price : ℚ
  market_cap : ℚ
deriving DecidableEq

/-- `fetch_top_coins(n)` from `src/crypto_dashboard.py`: issues the request
(the `n` only shapes the query parameters of the external HTTP call) and
returns the parsed JSON list verbatim — no filtering of any kind. -/
def fetch_top_coins (n : Nat) (response : List Coin) : List Coin :=
  response

/-- `fetch_crypto_price(coin_id, vs_currency)` from `src/app.py`: if the
markets response is empty, return an empty frame; otherwise build a frame
from `hdata.get("prices", [])` (empty list default — no exception and no
error value when the key is absent).  `set_index("timestamp")` is kept as
a column here. -/
def fetch_crypto_price (markets : List Coin) (hist : MarketChartPayload) : Frame :=
  if markets.isEmpty then []
  else
    let prices := ((hist.fields.find? (·.1 == "prices")).map (·.2)).getD []
    [("timestamp", prices.map (fun r => some (r.1 : ℚ))),
     ("price", prices.map (fun r => some r.2))]

/-- An Alpha Vantage payload: a JSON object mapping top-level keys to time
series, each series mapping a date string to a column-name/value map.
(Non-series fields such as `"Meta Data"` or a rate-limit `"Note"` are
modelled as series-typed fields whose contents are never inspected.) -/
abbrev AVPayload := List (String × List (String × List (String × ℚ)))

/-- Column rename used by `fetch_fx_usd_eur`: a pandas dict-rename, which
leaves unmatched labels unchanged. -/
def renameFxCol (c : String) : String :=
  if c = "1. open" then "open"
  else if c = "2. high" then "high"
  else if c = "3. low" then "low"
  else if c = "4. close" then "close"
  else c

/-- `fetch_fx_usd_eur()` from `src/app.py` as a function of the parsed
payload: takes `data.get("Time Series FX (Daily)", {})`, builds the frame
with the date strings as index, sorts by index (`sort_index`), renames the
OHLC columns, `astype(float)` (identity on parsed numbers).  ISO `YYYY-MM-DD`
date keys are kept as strings: `pd.to_datetime` is strictly monotone on
them, so ordering statements are unaffected. -/
def fetch_fx_usd_eur (data : AVPayload) : List (String × List (String × ℚ)) :=
  let series := ((data.find? (·.1 == "Time Series FX (Daily)")).map (·.2)).getD []
  (series.mergeSort (fun a b => decide (a.1 ≤ b.1))).map
    (fun r => (r.1, r.2.map (fun c => (renameFxCol c.1, c.2))))

/-- Python's substring test `needle in haystack`, on character lists. -/
def hasSubstr (needle : List Char) : List Char → Bool
  | [] => needle.isEmpty
  | c :: rest => needle.isPrefixOf (c :: rest) || hasSubstr needle rest

/-- Column rename used by `fetch_stock_intraday`: the lambda
`c.split(". ")[1]`, which raises `IndexError` when the label has no
`". "` separator. -/
def renameAvCol (c : String) : Except String String :=
  match c.splitOn ". " with
  | _ :: x :: _ => .ok x
  | _ => .error "IndexError"

/-- `fetch_stock_intraday(symbol)` from `src/app.py` as a function of the
parsed payload: finds the first key containing `"Time Series"`; when none
exists returns an empty frame (no error kind, no exception); otherwise
sorts the series rows by date key and renames each column label with
`c.split(". ")[1]`. -/
def fetch_stock_intraday (data : AVPayload) : Except String (List (String × List (String × ℚ))) :=
  match data.find? (fun kv => hasSubstr "Time Series".toList kv.1.toList) with
  | none => .ok []
  | some kv =>
      (kv.2.mergeSort (fun a b => decide (a.1 ≤ b.1))).mapM (fun r => do
        let cols ← r.2.mapM (fun c => do
          let name ← renameAvCol c.1
          return (name, c.2))
        return (r.1, cols))

/-! ### Spec-modelled parts

The stablecoin deny-list and the time-to-live cache are not implemented in
`src/`; they are modelled from the spec's words. -/

/-- Modelled from the spec: the "configured deny-list of identifiers,
e.g. fiat-pegged tokens" that the market-listing fetch is required to
exclude.  No such list exists anywhere in `src/`. -/
def stablecoinDenyList : List String :=
  ["tether", "usd-coin", "binance-usd", "dai"]

/-- Fetch failure kinds from the spec's error-handling design. -/
inductive FetchError where
  | Unreachable
  | RateLimited
  | EmptyData
  | ParseFailure
deriving DecidableEq

/-- Modelled from the spec: the process-wide response cache behind
`@st.cache_data(ttl=600)` (the `streamlit` implementation is external to
this repository).  An entry holds a value and its fetch time, keyed by the
argument key. -/
structure CacheState (α : Type) where
  entries : List (String × α × Nat)

/-- Modelled from the spec: a non-expired entry for `key` is one stored
less than `ttl` time units before `now`. -/
def lookupFresh (c : CacheState α) (key : String) (now ttl : Nat) : Option α :=
  match c.entries.find? (·.1 == key) with
  | some e => if now - e.2.2 < ttl then some e.2.1 else none
  | none => none

/-- Modelled from the spec: `get_or_fetch(key, ttl, fetch_fn)`.  If a
non-expired entry exists, return it without invoking `fetch_fn`; otherwise
invoke `fetch_fn`, caching the result on success and caching nothing on
failure.  The third component counts the `fetch_fn` invocations made by
this call (0 or 1). -/
def get_or_fetch (c : CacheState α) (key : String) (now ttl : Nat)
    (fetch_fn : Unit → Except FetchError α) :
    Except FetchError α × CacheState α × Nat :=
  match lookupFresh c key now ttl with
  | some v => (.ok v, c, 0)
  | none =>
      match fetch_fn () with
      | .ok v => (.ok v, ⟨(key, v, now) :: c.entries.filter (fun e => !(e.1 == key))⟩, 1)
      | .error e => (.error e, c, 1)

/-! ### Helper lemmas -/

theorem qmin_eq_min (a b : ℚ) : qmin a b = min a b := by
  unfold qmin
  rw [min_def]
  by_cases h : b < a
  · rw [if_pos h, if_neg (not_le.mpr h)]
  · rw [if_neg h, if_pos (not_lt.mp h)]

theorem qmax_eq_max (a b : ℚ) : qmax a b = max a b := by
  unfold qmax
  rw [max_def]
  by_cases h : a < b
  · rw [if_pos h, if_pos h.le]
  · rw [if_neg h]
    by_cases h2 : a ≤ b
    · rw [if_pos h2, le_antisymm h2 (not_lt.mp h)]
    · rw [if_neg h2]

theorem seqCells_map_some (l : List ℚ) : seqCells (l.map some) = some l := by
  induction l with
  | nil => rfl
  | cons x xs ih => simp [seqCells, ih]

theorem rollingApply_getLast (w : Nat) (f : List ℚ → ℚ) (xs : Col) (h : xs ≠ []) :
    (rollingApply w f xs).getLast? =
      some (if xs.length < w then none
            else (seqCells ((xs.drop (xs.length - w)).take w)).map f) := by
  have hn : 0 < xs.length := List.length_pos.mpr h
  unfold rollingApply
  rw [List.getLast?_eq_getElem?]
  simp only [List.length_map, List.length_range]
  rw [List.getElem?_map, List.getElem?_range (by omega)]
  have hx : xs.length - 1 + 1 = xs.length := by omega
  rw [Option.map_some', hx]

theorem rollingMean_getLast_short (w : Nat) (xs : Col) (h0 : xs ≠ [])
    (h : xs.length < w) : (rollingMean w xs).getLast? = some none := by
  rw [rollingMean, rollingApply_getLast w _ xs h0, if_pos h]

theorem rollingMean_getLast_full (w : Nat) (hw : 0 < w) (ps : List ℚ)
    (h : w ≤ ps.length) :
    (rollingMean w (ps.map some)).getLast? =
      some (some (windowMean w (ps.drop (ps.length - w)))) := by
  have hn : 0 < ps.length := lt_of_lt_of_le hw h
  have hne : ps.map some ≠ [] := by
    rw [ne_eq, List.map_eq_nil_iff]
    exact List.ne_nil_of_length_pos hn
  rw [rollingMean, rollingApply_getLast w _ _ hne, List.length_map,
    if_neg (by omega), ← List.map_drop,
    List.take_of_length_le (by rw [List.length_map, List.length_drop]; omega),
    seqCells_map_some, Option.map_some']

theorem getColE_of_lookupCol {df : Frame} {name : String} {col : Col}
    (h : lookupCol name df = some col) : getColE df name = .ok col := by
  unfold lookupCol at h
  unfold getColE
  cases hf : df.find? (·.1 == name) with
  | none => rw [hf] at h; simp at h
  | some p =>
      rw [hf] at h
      rw [Option.map_some'] at h
      rw [Option.some_inj] at h
      simp [h]

theorem setCol_append (df : Frame) (name : String) (col : Col)
    (h : df.any (·.1 == name) = false) : setCol df name col = df ++ [(name, col)] := by
  simp [setCol, h]

theorem filter_key_length_le_one (vols : List (Nat × ℚ)) (t : Nat)
    (h : (vols.map Prod.fst).Nodup) : (vols.filter (·.1 == t)).length ≤ 1 := by
  induction vols with
  | nil => simp
  | cons v vs ih =>
      rw [List.map_cons, List.nodup_cons] at h
      by_cases hv : v.1 = t
      · have hnone : vs.filter (·.1 == t) = [] := by
          rw [List.filter_eq_nil_iff]
          intro a ha hat
          rw [beq_iff_eq] at hat
          exact h.1 (hv ▸ hat ▸ List.mem_map_of_mem Prod.fst ha)
        simp [List.filter_cons, hv, hnone]
      · rw [List.filter_cons, if_neg (by simpa using hv)]
        exact ih h.2

theorem joinRow_map_fst (vols : List (Nat × ℚ)) (tp : Nat × ℚ)
    (h : (vols.map Prod.fst).Nodup) : (joinRow vols tp).map Prod.fst = [tp.1] := by
  have hle := filter_key_length_le_one vols tp.1 h
  unfold joinRow
  cases hm : vols.filter (·.1 == tp.1) with
  | nil => simp
  | cons m ms =>
      rw [hm, List.length_cons] at hle
      have hms : ms = [] := by
        rw [← List.length_eq_zero]; omega
      subst hms
      simp

theorem leftJoinVolume_map_fst (ps vols : List (Nat × ℚ))
    (h : (vols.map Prod.fst).Nodup) :
    (leftJoinVolume ps vols).map Prod.fst = ps.map Prod.fst := by
  induction ps with
  | nil => rfl
  | cons tp ps ih =>
      rw [leftJoinVolume, List.flatMap_cons, List.map_append,
        joinRow_map_fst vols tp h]
      rw [leftJoinVolume] at ih
      rw [ih, List.map_cons]
      rfl

/-- The claim's `SMA(window)_last` for the fixed window 20: the arithmetic
mean of the trailing 20 samples. -/
def sma20Last (prices : List ℚ) : ℚ :=
  windowMean 20 (prices.drop (prices.length - 20))

theorem getLast_map_some_of_ne_nil (prices : List ℚ) (hne : prices ≠ []) :
    (prices.map some).getLast? = some (some (prices.getLastD 0)) := by
  rw [List.getLast?_map]
  obtain ⟨x, hx⟩ := Option.isSome_iff_exists.mp (List.getLast?_isSome.mpr hne)
  rw [hx, List.getLastD_eq_getLast?, hx]
  rfl

/-! ### Claims -/

/-- C2: for every price series with at least 20 samples and a non-zero last
SMA, `compute_buy_sell_strength` returns exactly
`clamp((last_price − SMA(20)_last) / SMA(20)_last, -1, 1)`, and this value
lies in the closed interval `[-1, 1]`. -/
theorem C2_strength_formula (df : Frame) (prices : List ℚ)
    (hcol : lookupCol "price" df = some (prices.map some))
    (hlen : 20 ≤ prices.length)
    (hsma : sma20Last prices ≠ 0) :
    compute_buy_sell_strength df =
      .ok (some (qmax (qmin ((prices.getLastD 0 - sma20Last prices) / sma20Last prices) 1) (-1)))
    ∧ (-1 : ℚ) ≤ qmax (qmin ((prices.getLastD 0 - sma20Last prices) / sma20Last prices) 1) (-1)
    ∧ qmax (qmin ((prices.getLastD 0 - sma20Last prices) / sma20Last prices) 1) (-1) ≤ 1 := by
  have hne : prices ≠ [] := List.ne_nil_of_length_pos (by omega)
  refine ⟨?_, ?_, ?_⟩
  · unfold compute_buy_sell_strength
    rw [getColE_of_lookupCol hcol]
    have h2 : (rollingMean 20 (prices.map some)).getLast? =
        some (some (sma20Last prices)) :=
      rollingMean_getLast_full 20 (by norm_num) prices hlen
    simp only [Bind.bind, Except.bind, getLast_map_some_of_ne_nil prices hne, h2,
      osub, odiv, oclamp, Option.map_some']
    rfl
  · rw [qmax_eq_max]
    exact le_max_right _ _
  · rw [qmax_eq_max, qmin_eq_min]
    exact max_le (le_trans (min_le_right _ _) le_rfl) (by norm_num)

/-- C2 witness: a flat series of twenty samples of price 1 instantiates the
theorem (last price 1, trailing SMA 1, strength 0). -/
theorem C2_witness :
    compute_buy_sell_strength [("price", (List.replicate 20 (1:ℚ)).map some)] =
      .ok (some (qmax (qmin (((List.replicate 20 (1:ℚ)).getLastD 0 -
          sma20Last (List.replicate 20 (1:ℚ))) / sma20Last (List.replicate 20 (1:ℚ))) 1) (-1)))
    ∧ (-1 : ℚ) ≤ qmax (qmin (((List.replicate 20 (1:ℚ)).getLastD 0 -
          sma20Last (List.replicate 20 (1:ℚ))) / sma20Last (List.replicate 20 (1:ℚ))) 1) (-1)
    ∧ qmax (qmin (((List.replicate 20 (1:ℚ)).getLastD 0 -
          sma20Last (List.replicate 20 (1:ℚ))) / sma20Last (List.replicate 20 (1:ℚ))) 1) (-1) ≤ 1 :=
  C2_strength_formula [("price", (List.replicate 20 (1:ℚ)).map some)]
    (List.replicate 20 (1:ℚ)) rfl (by simp)
    (by simp [sma20Last, windowMean, List.sum_replicate]; norm_num)

/-- C3 as stated is false: on the one-sample series with price 1 (shorter
than the window 20), `compute_buy_sell_strength` returns `NaN` (the SMA is
undefined and propagates through the clamp), not the claimed neutral 0. -/
theorem C3_counterexample :
    compute_buy_sell_strength [("price", [(1:ℚ)].map some)] = .ok none
    ∧ (Except.ok (none : Cell) : Except String Cell) ≠ .ok (some (0:ℚ)) := by
  constructor
  · rfl
  · simp

/-- C3 amended: for every non-empty price series with fewer than 20 samples,
`compute_buy_sell_strength` returns `NaN` (no value), because the trailing
SMA is undefined and `NaN` propagates through subtraction, division and the
`min`/`max` clamp. -/
theorem C3_short_series_nan (df : Frame) (prices : List ℚ)
    (hcol : lookupCol "price" df = some (prices.map some))
    (hne : prices ≠ [])
    (hlen : prices.length < 20) :
    compute_buy_sell_strength df = .ok none := by
  unfold compute_buy_sell_strength
  rw [getColE_of_lookupCol hcol]
  have h2 : (rollingMean 20 (prices.map some)).getLast? = some none :=
    rollingMean_getLast_short 20 (prices.map some)
      (by rw [ne_eq, List.map_eq_nil_iff]; exact hne)
      (by rw [List.length_map]; exact hlen)
  simp only [Bind.bind, Except.bind, getLast_map_some_of_ne_nil prices hne, h2,
    osub, odiv, oclamp, Option.map_none']
  rfl

/-- C3 witness (for the amended claim): the one-sample series of price 1. -/
theorem C3_witness :
    compute_buy_sell_strength [("price", [(1:ℚ)].map some)] = .ok none :=
  C3_short_series_nan [("price", [(1:ℚ)].map some)] [(1:ℚ)]
    rfl (by simp) (by simp)

/-- C8: for every input frame and every indicator kind outside
{"SMA", "Bollinger Bands", "Ichimoku", "RSI"}, `compute_indicator` returns
the input frame unchanged, with no derived columns and no error. -/
theorem C8_unknown_kind_id (df : Frame) (kind : String)
    (h1 : kind ≠ "SMA") (h2 : kind ≠ "Bollinger Bands")
    (h3 : kind ≠ "Ichimoku") (h4 : kind ≠ "RSI") :
    compute_indicator df kind = .ok df := by
  unfold compute_indicator
  rw [if_neg h1, if_neg h2, if_neg h3, if_neg h4]
  rfl

/-- C8 witness: the kind "EMA" on a one-column frame. -/
theorem C8_witness :
    compute_indicator [("price", [some (1:ℚ)])] "EMA" = .ok [("price", [some (1:ℚ)])] :=
  C8_unknown_kind_id [("price", [some (1:ℚ)])] "EMA"
    (by decide) (by decide) (by decide) (by decide)

/-- C9: for every input series with the pipeline's columns
(timestamp, price, volume) and every indicator kind, `compute_indicator`
leaves the pre-existing columns unchanged in value and order, appending
only named derived columns of the chosen indicator. -/
theorem C9_indicator_appends (ts ps vs : Col) (kind : String) :
    ∃ extra,
      compute_indicator [("timestamp", ts), ("price", ps), ("volume", vs)] kind
        = .ok ([("timestamp", ts), ("price", ps), ("volume", vs)] ++ extra)
      ∧ ∀ p ∈ extra, p.1 ∈ ["SMA_14", "bb_h", "bb_l", "bb_m", "tenkan", "kijun",
          "senkou_a", "senkou_b", "rsi_14"] := by
  by_cases h1 : kind = "SMA"
  · subst h1
    exact ⟨[("SMA_14", rollingMean 14 ps)], rfl, by simp⟩
  by_cases h2 : kind = "Bollinger Bands"
  · subst h2
    exact ⟨[("bb_h", colMap2 (fun a b => a + 2 * b) (rollingMean 20 ps) (rollingStd 20 ps)),
           ("bb_l", colMap2 (fun a b => a - 2 * b) (rollingMean 20 ps) (rollingStd 20 ps)),
           ("bb_m", rollingMean 20 ps)], rfl, by simp⟩
  by_cases h3 : kind = "Ichimoku"
  · subst h3
    exact ⟨[("tenkan", colMap2 (fun a b => (a + b) / 2) (rollingMax 9 ps) (rollingMin 9 ps)),
           ("kijun", colMap2 (fun a b => (a + b) / 2) (rollingMax 26 ps) (rollingMin 26 ps)),
           ("senkou_a", colMap2 (fun a b => (a + b) / 2)
             (colMap2 (fun a b => (a + b) / 2) (rollingMax 9 ps) (rollingMin 9 ps))
             (colMap2 (fun a b => (a + b) / 2) (rollingMax 26 ps) (rollingMin 26 ps))),
           ("senkou_b", colMap2 (fun a b => (a + b) / 2) (rollingMax 52 ps) (rollingMin 52 ps))],
      rfl, by simp⟩
  by_cases h4 : kind = "RSI"
  · subst h4
    exact ⟨[("rsi_14", rsiCol 14 ps)], rfl, by simp⟩
  · refine ⟨[], ?_, by simp⟩
    unfold compute_indicator
    rw [if_neg h1, if_neg h2, if_neg h3, if_neg h4]
    rfl

/-- C10: for every equity-intraday payload with no key containing
"Time Series" (e.g. a rate-limit notice), `fetch_stock_intraday` returns an
empty table — no distinguished error kind, no exception. -/
theorem C10_no_series_key_empty (data : AVPayload)
    (h : ∀ kv ∈ data, hasSubstr "Time Series".toList kv.1.toList = false) :
    fetch_stock_intraday data = .ok [] := by
  unfold fetch_stock_intraday
  rw [List.find?_eq_none.mpr (by intro kv hkv; simpa using h kv hkv)]

/-- C10 witness: a payload holding only a rate-limit "Note" field. -/
theorem C10_witness : fetch_stock_intraday [("Note", [])] = .ok [] :=
  C10_no_series_key_empty [("Note", [])] (by decide)

/-- A deny-listed stablecoin as returned by the market listing. -/
def tetherCoin : Coin := ⟨"tether", "usdt", "Tether", 1, 83000000000⟩

/-- C4 as stated is false: `fetch_top_coins` applies no deny-list filtering;
an upstream listing containing the fiat-pegged asset "tether" is returned
with that asset still present. -/
theorem C4_counterexample :
    tetherCoin ∈ fetch_top_coins 30 [tetherCoin]
    ∧ tetherCoin.id ∈ stablecoinDenyList := by
  constructor
  · simp [fetch_top_coins]
  · simp [tetherCoin, stablecoinDenyList]

/-- C4 amended: `fetch_top_coins` returns the upstream listing verbatim —
no asset, deny-listed or not, is filtered out by identifier. -/
theorem C4_no_filtering (n : Nat) (response : List Coin) :
    fetch_top_coins n response = response := rfl

/-- The no-`"prices"` payload (e.g. an error body with other fields). -/
def noPricesPayload : MarketChartPayload := ⟨[("total_volumes", [])]⟩

/-- C1 as stated is false: on a history payload lacking the "prices" key,
`fetch_coin_history` raises `KeyError` — a raw exception propagating to the
caller, not a returned `FetchError(EmptyData)`. -/
theorem C1_counterexample :
    fetch_coin_history noPricesPayload = .error "KeyError: prices" := rfl

/-- C1 amended: on every history payload lacking the "prices" key,
`fetch_coin_history` propagates a `KeyError` exception (so downstream
indicator and strength computations are never reached through it), while
`fetch_crypto_price` returns an empty series rather than any error value. -/
theorem C1_missing_prices (payload : MarketChartPayload)
    (h : payload.fields.find? (·.1 == "prices") = none) :
    fetch_coin_history payload = .error "KeyError: prices"
    ∧ ∀ markets : List Coin, markets ≠ [] →
        fetch_crypto_price markets payload = [("timestamp", []), ("price", [])] := by
  constructor
  · unfold fetch_coin_history jget
    rw [h]
    rfl
  · intro markets hm
    unfold fetch_crypto_price
    rw [if_neg (by simp [List.isEmpty_iff, hm]), h]
    rfl

/-- A floating (non-stablecoin) asset for instantiating listings. -/
def btcCoin : Coin := ⟨"bitcoin", "btc", "Bitcoin", 60000, 1200000000000⟩

/-- C1 witness (for the amended claim): the concrete payload holding only a
"total_volumes" field. -/
theorem C1_witness :
    fetch_coin_history noPricesPayload = .error "KeyError: prices"
    ∧ fetch_crypto_price [btcCoin] noPricesPayload = [("timestamp", []), ("price", [])] :=
  ⟨(C1_missing_prices noPricesPayload rfl).1,
   (C1_missing_prices noPricesPayload rfl).2 [btcCoin] (by simp)⟩

/-- The spec's 3-sample crypto history payload. -/
def examplePayload : MarketChartPayload :=
  ⟨[("prices", [(0, 100), (86400000, 110), (172800000, 90)]),
    ("total_volumes", [])]⟩

/-- What normalization actually produces for `examplePayload`. -/
def exNormFrame : Frame :=
  [("timestamp", [some 0, some 86400000, some 172800000]),
   ("price", [some 100, some 110, some 90]),
   ("volume", [none, none, none])]

/-- C5 as stated is false: at the spec's own example prices
[100, 110, 90], normalization produces only timestamp/price/volume — there
is no "high" column at all, let alone one holding price × 1.02. -/
theorem C5_counterexample :
    fetch_coin_history examplePayload = .ok exNormFrame
    ∧ lookupCol "high" exNormFrame = none := ⟨rfl, rfl⟩

/-- C5 amended: for every payload carrying both the "prices" and
"total_volumes" keys, the normalized frame has exactly the columns
timestamp, price, volume; no high/low/close/average column is
synthesized. -/
theorem C5_no_synthesis (payload : MarketChartPayload)
    (prices vols : List (Nat × ℚ))
    (h1 : jget payload "prices" = .ok prices)
    (h2 : jget payload "total_volumes" = .ok vols) :
    ∃ F, fetch_coin_history payload = .ok F
      ∧ F.map Prod.fst = ["timestamp", "price", "volume"]
      ∧ lookupCol "high" F = none ∧ lookupCol "low" F = none
      ∧ lookupCol "close" F = none ∧ lookupCol "average" F = none := by
  refine ⟨[("timestamp", (leftJoinVolume prices vols).map (fun r => some (r.1 : ℚ))),
           ("price", (leftJoinVolume prices vols).map (fun r => some r.2.1)),
           ("volume", (leftJoinVolume prices vols).map (fun r => r.2.2))],
    ?_, rfl, rfl, rfl, rfl, rfl⟩
  unfold fetch_coin_history
  rw [h1, h2]
  rfl

/-- C5 witness (for the amended claim): the spec's 3-sample payload. -/
theorem C5_witness :
    ∃ F, fetch_coin_history examplePayload = .ok F
      ∧ F.map Prod.fst = ["timestamp", "price", "volume"]
      ∧ lookupCol "high" F = none ∧ lookupCol "low" F = none
      ∧ lookupCol "close" F = none ∧ lookupCol "average" F = none :=
  C5_no_synthesis examplePayload
    [(0, 100), (86400000, 110), (172800000, 90)] [] rfl rfl

/-- C7 (spec-modelled): starting from an empty cache, two `get_or_fetch`
calls with the same key within the 600-unit time-to-live invoke the
underlying fetch exactly once in total (the second is a cache hit); when
the second call happens after the time-to-live has elapsed, it invokes the
fetch again (two invocations in total). -/
theorem C7_cache_ttl {α : Type} (key : String) (f : Unit → Except FetchError α)
    (v : α) (hf : f () = .ok v) (t1 t2 : Nat) :
    (get_or_fetch ⟨[]⟩ key t1 600 f).2.2 = 1
    ∧ (t2 - t1 < 600 →
        (get_or_fetch (get_or_fetch ⟨[]⟩ key t1 600 f).2.1 key t2 600 f).2.2 = 0)
    ∧ (600 ≤ t2 - t1 →
        (get_or_fetch (get_or_fetch ⟨[]⟩ key t1 600 f).2.1 key t2 600 f).2.2 = 1) := by
  have hfirst : get_or_fetch (⟨[]⟩ : CacheState α) key t1 600 f
      = (.ok v, ⟨[(key, v, t1)]⟩, 1) := by
    unfold get_or_fetch lookupFresh
    simp [hf]
  refine ⟨by rw [hfirst], ?_, ?_⟩
  · intro h
    rw [hfirst]
    unfold get_or_fetch lookupFresh
    simp [List.find?, if_pos h]
  · intro h
    rw [hfirst]
    unfold get_or_fetch lookupFresh
    simp [List.find?, if_neg (not_lt.mpr h), hf]

/-- A concrete always-successful fetch for instantiating the cache claim. -/
def constFetch42 : Unit → Except FetchError Nat := fun _ => .ok 42

/-- C7 witness: key "top_coins(30)", first call at time 0; a second call at
time 10 hits the cache, and one at time 800 misses it. -/
theorem C7_witness :
    (get_or_fetch ⟨[]⟩ "top_coins(30)" 0 600 constFetch42).2.2 = 1
    ∧ (get_or_fetch (get_or_fetch ⟨[]⟩ "top_coins(30)" 0 600 constFetch42).2.1
        "top_coins(30)" 10 600 constFetch42).2.2 = 0
    ∧ (get_or_fetch (get_or_fetch ⟨[]⟩ "top_coins(30)" 0 600 constFetch42).2.1
        "top_coins(30)" 800 600 constFetch42).2.2 = 1 :=
  ⟨(C7_cache_ttl "top_coins(30)" constFetch42 42 rfl 0 10).1,
   (C7_cache_ttl "top_coins(30)" constFetch42 42 rfl 0 10).2.1 (by decide),
   (C7_cache_ttl "top_coins(30)" constFetch42 42 rfl 0 800).2.2 (by decide)⟩

theorem fx_keys_sorted {β : Type} (series : List (String × β))
    (h : (series.map Prod.fst).Nodup) :
    List.Sorted (· < ·)
      ((series.mergeSort (fun a b => decide (a.1 ≤ b.1))).map Prod.fst) := by
  have hs : List.Pairwise (fun a b => (fun a b : String × β => decide (a.1 ≤ b.1)) a b = true)
      (series.mergeSort (fun a b => decide (a.1 ≤ b.1))) :=
    List.sorted_mergeSort
      (by intro a b c hab hbc
          simp only [decide_eq_true_eq] at *
          exact le_trans hab hbc)
      (by intro a b
          simpa [Bool.or_eq_true, decide_eq_true_eq] using le_total a.1 b.1)
      series
  have hle : List.Sorted (· ≤ ·)
      ((series.mergeSort (fun a b => decide (a.1 ≤ b.1))).map Prod.fst) := by
    rw [List.Sorted, List.pairwise_map]
    exact hs.imp (by intro a b hab; simpa using hab)
  have hnd : ((series.mergeSort (fun a b => decide (a.1 ≤ b.1))).map Prod.fst).Nodup :=
    (((List.mergeSort_perm series _).map Prod.fst).symm).nodup h
  exact hle.lt_of_le hnd

/-- C6 amended: `fetch_fx_usd_eur` sorts by date key, so whenever the
upstream JSON object keys are unique (as dict keys are) its output index is
strictly ascending; `fetch_coin_history`, by contrast, performs no sorting
and no deduplication: its timestamp column is exactly the upstream
`"prices"` timestamps in upstream order (here under volume timestamps free
of duplicates, which keep the left-join from multiplying rows), hence it is
ascending only when the payload already is. -/
theorem C6_sorting :
    (∀ data : AVPayload,
      ((((data.find? (·.1 == "Time Series FX (Daily)")).map (·.2)).getD []).map Prod.fst).Nodup →
      List.Sorted (· < ·) ((fetch_fx_usd_eur data).map Prod.fst))
    ∧ (∀ (payload : MarketChartPayload) (prices vols : List (Nat × ℚ)),
        jget payload "prices" = .ok prices →
        jget payload "total_volumes" = .ok vols →
        (vols.map Prod.fst).Nodup →
        ∃ F, fetch_coin_history payload = .ok F ∧
          lookupCol "timestamp" F = some (prices.map (fun r => some ((r.1 : ℚ))))) := by
  constructor
  · intro data hnd
    unfold fetch_fx_usd_eur
    rw [List.map_map]
    exact fx_keys_sorted _ hnd
  · intro payload prices vols h1 h2 hnd
    have heq : (leftJoinVolume prices vols).map (fun r => some ((r.1 : ℚ)))
        = prices.map (fun r => some ((r.1 : ℚ))) := by
      calc (leftJoinVolume prices vols).map (fun r => some ((r.1 : ℚ)))
          = ((leftJoinVolume prices vols).map Prod.fst).map
              (fun (t : Nat) => some ((t : ℚ))) := by rw [List.map_map]; rfl
        _ = (prices.map Prod.fst).map (fun (t : Nat) => some ((t : ℚ))) := by
            rw [leftJoinVolume_map_fst prices vols hnd]
        _ = prices.map (fun r => some ((r.1 : ℚ))) := by rw [List.map_map]; rfl
    refine ⟨[("timestamp", prices.map (fun (r : Nat × ℚ) => some ((r.1 : ℚ)))),
             ("price", (leftJoinVolume prices vols).map
               (fun (r : Nat × ℚ × Cell) => some r.2.1)),
             ("volume", (leftJoinVolume prices vols).map
               (fun (r : Nat × ℚ × Cell) => r.2.2))], ?_, rfl⟩
    unfold fetch_coin_history
    rw [h1, h2]
    simp only [Bind.bind, Except.bind]
    rw [heq]
    rfl

/-- An out-of-order upstream history payload. -/
def unsortedPayload : MarketChartPayload :=
  ⟨[("prices", [(1, 100), (0, 110)]), ("total_volumes", [])]⟩

/-- C6 as stated is false: an upstream payload with out-of-order timestamps
normalizes to a series whose timestamps [1, 0] are not ascending — no
sorting or deduplication happens on the crypto history path. -/
theorem C6_counterexample :
    fetch_coin_history unsortedPayload =
      .ok [("timestamp", [some 1, some 0]), ("price", [some 100, some 110]),
           ("volume", [none, none])]
    ∧ ¬ List.Sorted (· < ·) [(1 : ℚ), 0] :=
  ⟨rfl, by decide⟩

/-- An FX payload whose date keys arrive out of order. -/
def fxPayloadEx : AVPayload :=
  [("Time Series FX (Daily)", [("2024-01-02", []), ("2024-01-01", [])])]

/-- C6 witness (for the amended claim): a 2-row FX payload with unique
unsorted keys gets a strictly ascending index; the out-of-order crypto
payload keeps its upstream timestamp order. -/
theorem C6_witness :
    List.Sorted (· < ·) ((fetch_fx_usd_eur fxPayloadEx).map Prod.fst)
    ∧ ∃ F, fetch_coin_history unsortedPayload = .ok F ∧
        lookupCol "timestamp" F =
          some (([((1:Nat), (100:ℚ)), ((0:Nat), (110:ℚ))]).map (fun r => some ((r.1 : ℚ)))) :=
  ⟨C6_sorting.1 fxPayloadEx (by decide),
   C6_sorting.2 unsortedPayload [(1, 100), (0, 110)] [] rfl rfl (by decide)⟩

end FinDash
